import Mathlib

/-!
Verification of the zoo node core: the identity naming grammar
(`zoo_name.rs`), the identity registry resolver (`zoo_registry.rs`) and the
layered message encryption protocol (`zoo_message_encryption.rs`), embedded
shallowly.  Rust `String` values are modelled as `List Char` (`RStr`), byte
buffers as `List Nat` with explicit `< 256` bounds, and fallible Rust code as
`Except`; Rust operations that can panic (`slice::split_at`) are modelled by
an explicit `RustRes.panicked` outcome so that panics are observable.
-/

/-- Rust `String` / `&str`, modelled as its character list. -/
abbrev RStr := List Char

/-- Rust `str::split(sep)`: splits at every separator, always returns at
least one (possibly empty) piece. -/
def splitOnCh (sep : Char) : RStr → List RStr
  | [] => [[]]
  | c :: rest =>
    if c = sep then [] :: splitOnCh sep rest
    else
      match splitOnCh sep rest with
      | [] => [[c]]
      | h :: t => (c :: h) :: t

/-- Helper for `splitn(2, sep)`: locate the first separator. -/
def breakAtCh (sep : Char) : RStr → Option (RStr × RStr)
  | [] => none
  | c :: rest =>
    if c = sep then some ([], rest)
    else (breakAtCh sep rest).map (fun p => (c :: p.1, p.2))

/-- Rust `str::splitn(2, sep)`: split only at the first separator. -/
def splitN2 (sep : Char) (s : RStr) : List RStr :=
  match breakAtCh sep s with
  | none => [s]
  | some (a, b) => [a, b]

/-- Rust `str::trim_start_matches("@@")`: strip every leading `@@`. -/
def trimLeadingAtAt : RStr → RStr
  | '@' :: '@' :: rest => trimLeadingAtAt rest
  | s => s

/-- Recursion core of `str::replace`, structurally recursive on a fuel
bound: one unit of fuel per consumed character (a nonempty pattern consumes
at least one character per replacement). -/
def replAux (pat rep : RStr) : Nat → RStr → RStr
  | 0, s => s
  | _, [] => []
  | fuel + 1, c :: rest =>
    if pat.isPrefixOf (c :: rest) then
      rep ++ replAux pat rep fuel ((c :: rest).drop pat.length)
    else c :: replAux pat rep fuel rest

/-- Rust `str::replace(pat, rep)`: replace every non-overlapping occurrence,
left to right.  (Guarded on a nonempty pattern, as all call sites use.) -/
def replaceAllL (pat rep : RStr) (s : RStr) : RStr :=
  if pat.isEmpty then s else replAux pat rep s.length s

/-- Rust `str::replacen(pat, rep, 1)`: replace only the first occurrence. -/
def replaceFirstL (pat rep : RStr) : RStr → RStr
  | [] => []
  | c :: rest =>
    if pat.isPrefixOf (c :: rest) then rep ++ (c :: rest).drop pat.length
    else c :: replaceFirstL pat rep rest

/-- Substring containment (Rust `str::contains`). -/
def containsSub (pat : RStr) : RStr → Bool
  | [] => pat.isPrefixOf []
  | c :: rest => pat.isPrefixOf (c :: rest) || containsSub pat rest

/-- Lowercase digit characters of the `hex` crate. -/
def hexDigitCh (n : Nat) : Char :=
  if n < 10 then Char.ofNat ('0'.toNat + n) else Char.ofNat ('a'.toNat + (n - 10))

/-- `hex::encode`: two lowercase digits per byte. -/
def hexEncodeL (l : List Nat) : RStr :=
  l.flatMap (fun b => [hexDigitCh (b / 16), hexDigitCh (b % 16)])

/-- Value of one hex digit (`hex::decode` accepts both cases). -/
def hexDigitVal (c : Char) : Option Nat :=
  if '0' ≤ c ∧ c ≤ '9' then some (c.toNat - '0'.toNat)
  else if 'a' ≤ c ∧ c ≤ 'f' then some (c.toNat - 'a'.toNat + 10)
  else if 'A' ≤ c ∧ c ≤ 'F' then some (c.toNat - 'A'.toNat + 10)
  else none

/-- `hex::decode`: fails on odd length or an invalid digit. -/
def hexDecodeL : RStr → Option (List Nat)
  | [] => some []
  | [_] => none
  | c1 :: c2 :: rest =>
    match hexDigitVal c1, hexDigitVal c2, hexDecodeL rest with
    | some h, some lo, some t => some ((16 * h + lo) :: t)
    | _, _, _ => none

/-! ## Identity naming grammar (`zoo_name.rs`) -/

/-- `ZooSubidentityType`: the closed set of third-segment tokens. -/
inductive ZooSubidentityType
  | agent
  | device
deriving DecidableEq

/-- `ZooSubidentityType::to_string` (its `Display` impl). -/
def ZooSubidentityType.toStr : ZooSubidentityType → RStr
  | .agent => "agent".data
  | .device => "device".data

/-- `ZooName`: a parsed structured identity. -/
structure ZooName where
  full_name : RStr
  node_name : RStr
  profile_name : Option RStr
  subidentity_type : Option ZooSubidentityType
  subidentity_name : Option RStr
deriving DecidableEq

/-- `ZooName::VALID_ENDINGS`, in source order. -/
def validEndings : List RStr :=
  [".zoo".data, ".sepolia-zoo".data, ".arb-sep-zoo".data, ".sep-zoo".data]

/-- The suffix alternatives of the node-name regex
`^@@[a-zA-Z0-9\_\.]+(\.zoo|\.arb-sep-zoo|\.sepolia-zoo|\.sep-zoo)$`. -/
def nodeRegexSuffixes : List RStr :=
  [".zoo".data, ".arb-sep-zoo".data, ".sepolia-zoo".data, ".sep-zoo".data]

/-- Character class `[a-zA-Z0-9_]` of the per-segment regex. -/
def isWordCh (c : Char) : Bool :=
  ('a' ≤ c && c ≤ 'z') || ('A' ≤ c && c ≤ 'Z') || ('0' ≤ c && c ≤ '9') || c = '_'

/-- Character class `[a-zA-Z0-9\_\.]` of the node-name regex. -/
def isNodeCh (c : Char) : Bool :=
  isWordCh c || c = '.'

/-- The per-segment regex `^[a-zA-Z0-9_]*$` (matches the empty string). -/
def segRegexMatch (s : RStr) : Bool :=
  s.all isWordCh

/-- The node-name regex: an anchored match exists iff the string decomposes
as `@@`, a nonempty run of node characters, and one of the four suffixes. -/
def nodeRegexMatch (s : RStr) : Bool :=
  "@@".data.isPrefixOf s &&
  nodeRegexSuffixes.any (fun suf =>
    suf.isSuffixOf s &&
    (let mid := (s.drop 2).take (s.length - 2 - suf.length)
     !mid.isEmpty && mid.all isNodeCh))

/-- `ZooName::correct_node_name`: auto-prefix `@@`, auto-suffix `.zoo`. -/
def correctNodeName (rawName : RStr) : RStr :=
  let parts := splitN2 '/' rawName
  let nodeName := parts.headD []
  let nodeName :=
    if "@@".data.isPrefixOf nodeName then nodeName else "@@".data ++ nodeName
  let nodeName :=
    if validEndings.any (fun e => e.isSuffixOf nodeName) then nodeName
    else nodeName ++ ".zoo".data
  match parts.get? 1 with
  | some rest => nodeName ++ '/' :: rest
  | none => nodeName

/-- The indexed loop body of `ZooName::validate_name`: per-part checks, in
source order, stopping at the first error. -/
def checkParts (i : Nat) : List RStr → Except RStr Unit
  | [] => .ok ()
  | p :: rest =>
    if i = 0 then
      if p.contains '/' then .error "Root node name cannot contain /.".data
      else checkParts (i + 1) rest
    else if i = 2 && !(p = "agent".data || p = "device".data) then
      .error "The third part should either be agent or device.".data
    else if i = 3 && !segRegexMatch p then
      .error "The fourth part (name after agent or device) should be alphanumeric or underscore.".data
    else if i ≠ 0 && i ≠ 2 && (!segRegexMatch p || containsSub ".zoo".data p) then
      .error "Name parts should be alphanumeric or underscore and not contain .zoo.".data
    else checkParts (i + 1) rest

/-- `ZooName::validate_name`. -/
def validateName (rawName : RStr) : Except RStr Unit :=
  let parts := splitOnCh '/' rawName
  if !(!parts.isEmpty && parts.length ≤ 4) then
    .error "Name should have one to four parts: node, profile, type (device or agent), and name.".data
  else if !("@@".data.isPrefixOf (parts.headD []))
      || !(validEndings.any (fun e => e.isSuffixOf (parts.headD []))) then
    .error "Node part of the name should start with @@ and end with a valid ending.".data
  else if !nodeRegexMatch (parts.headD []) then
    .error "Node part of the name contains invalid characters.".data
  else
    match checkParts 0 parts with
    | .error e => .error e
    | .ok () =>
      if parts.length = 3
          && (parts.getD 2 [] = "agent".data || parts.getD 2 [] = "device".data) then
        .error "If type is agent or device, a fourth part is expected.".data
      else .ok ()

/-- Outcome of `ZooName::new`: a format error (`Err(&str)` in the source) or
the explicit panic branch for an unrecognized third segment. -/
inductive ZooNewError
  | fmt (msg : RStr)
  | panicked (msg : RStr)
deriving DecidableEq

/-- Rust `str::to_lowercase`, character-wise (identical on ASCII input). -/
def lowerL (s : RStr) : RStr := s.map Char.toLower

/-- `ZooName::new`: normalize, validate, then split into the typed fields.
The source panics on a third segment that is neither `agent` nor `device`;
that branch is modelled by the explicit `ZooNewError.panicked` outcome. -/
def ZooName.new (rawName : RStr) : Except ZooNewError ZooName :=
  let raw := correctNodeName rawName
  match validateName raw with
  | .error m => .error (.fmt m)
  | .ok () =>
    let parts := splitOnCh '/' raw
    let nodeName := parts.headD []
    let profileName := parts.get? 1
    let subTy : Except RStr (Option ZooSubidentityType) :=
      match parts.get? 2 with
      | none => .ok none
      | some s =>
        if s = "agent".data then .ok (some .agent)
        else if s = "device".data then .ok (some .device)
        else .error "Invalid subidentity type".data
    match subTy with
    | .error m => .error (.panicked m)
    | .ok st =>
      .ok { full_name := lowerL raw
            node_name := lowerL nodeName
            profile_name := profileName.map lowerL
            subidentity_type := st
            subidentity_name := parts.get? 3 }

/-- `ZooNameError`, restricted to the variants the embedded operations use. -/
inductive ZooNameError
  | messageBodyMissing
  | invalidNameFormat (msg : RStr)
  | invalidOperation (msg : RStr)
deriving DecidableEq

/-- True exactly on the panic outcome of `ZooName.new`. -/
def isPanicOutcome : Except ZooNewError ZooName → Bool
  | .error (.panicked _) => true
  | _ => false

/-! ## Message data model (`zoo_message.rs`, `zoo_message_schemas.rs`) -/

/-- Modelled from the spec: `zoo_message_schemas.rs` (`MessageSchemaType`) is
not under src/.  The spec describes a typed content-schema tag with a string
form emitted by `to_str` and parsed back by `from_str`; a minimal closed enum
with distinct tags represents it. -/
inductive MessageSchemaType
  | textContent
  | jobCreationSchema
  | jobMessageSchema
deriving DecidableEq

/-- Modelled from the spec: `MessageSchemaType::to_str`. -/
def MessageSchemaType.toStr : MessageSchemaType → RStr
  | .textContent => "TextContent".data
  | .jobCreationSchema => "JobCreationSchema".data
  | .jobMessageSchema => "JobMessageSchema".data

/-- Modelled from the spec: `MessageSchemaType::from_str`, the partial
inverse of `to_str`. -/
def MessageSchemaType.fromStr (s : RStr) : Option MessageSchemaType :=
  if s = "TextContent".data then some .textContent
  else if s = "JobCreationSchema".data then some .jobCreationSchema
  else if s = "JobMessageSchema".data then some .jobMessageSchema
  else none

/-- Modelled from the spec: `ZooData` (unencrypted inner content), §6: raw
content plus schema tag. -/
structure ZooData where
  message_raw_content : RStr
  message_content_schema : MessageSchemaType
deriving DecidableEq

/-- Modelled from the spec: `EncryptedZooData`, the `encrypted:<hex>` frame
replacing the content field. -/
structure EncryptedZooData where
  content : RStr
deriving DecidableEq

/-- Modelled from the spec: `MessageData`, the inner tagged union. -/
inductive MessageData
  | unencrypted (data : ZooData)
  | encrypted (data : EncryptedZooData)
deriving DecidableEq

/-- Modelled from the spec: the internal metadata fields the identity
constructors read (`sender_subidentity` / `recipient_subidentity`). -/
structure InternalMetadata where
  sender_subidentity : RStr
  recipient_subidentity : RStr
deriving DecidableEq

/-- Modelled from the spec: `ZooBody`, an unencrypted whole body. -/
structure ZooBody where
  message_data : MessageData
  internal_metadata : InternalMetadata
deriving DecidableEq

/-- Modelled from the spec: `EncryptedZooBody`, the `encrypted:<hex>` frame
replacing the whole body. -/
structure EncryptedZooBody where
  content : RStr
deriving DecidableEq

/-- Modelled from the spec: `MessageBody`, the outer tagged union. -/
inductive MessageBody
  | unencrypted (body : ZooBody)
  | encrypted (body : EncryptedZooBody)
deriving DecidableEq

/-- Modelled from the spec: the external metadata fields the identity
constructors read (`sender` / `recipient`). -/
structure ExternalMetadata where
  sender : RStr
  recipient : RStr
deriving DecidableEq

/-- Modelled from the spec: the declared encryption method of a message
(`None` or the Diffie-Hellman/ChaCha20-Poly1305 scheme). -/
inductive EncryptionMethod
  | diffieHellmanChaChaPoly1305
  | none
deriving DecidableEq

/-- Modelled from the spec: `ZooMessage`, restricted to the fields the
embedded operations read. -/
structure ZooMessage where
  body : MessageBody
  encryption : EncryptionMethod
  external_metadata : ExternalMetadata
deriving DecidableEq

/-- `ZooMessageError`, restricted to the variants the embedded operations
produce. -/
inductive ZooMessageError
  | alreadyEncrypted (msg : RStr)
  | decryptionError (msg : RStr)
  | encryptionError (msg : RStr)
deriving DecidableEq

/-- Outcome of a Rust call that can panic: either a panic (with its message)
or a returned value. -/
inductive RustRes (α : Type)
  | panicked (msg : RStr)
  | returned (val : α)
deriving DecidableEq

/-! ## Identity constructors from messages (`zoo_name.rs`, lines 275-341) -/

/-- `ZooName::from_zoo_message_using_sender_subidentity`. -/
def ZooName.fromZooMessageUsingSenderSubidentity (message : ZooMessage) :
    Except ZooNameError ZooName :=
  match message.body with
  | .unencrypted body =>
    match ZooName.new message.external_metadata.sender with
    | .error _ => .error (.invalidNameFormat message.external_metadata.sender)
    | .ok node =>
      let senderSub : RStr :=
        if body.internal_metadata.sender_subidentity.isEmpty then []
        else '/' :: body.internal_metadata.sender_subidentity
      match ZooName.new (node.full_name ++ senderSub) with
      | .ok name => .ok name
      | .error _ => .error (.invalidNameFormat (node.full_name ++ senderSub))
  | .encrypted _ => .error .messageBodyMissing

/-- `ZooName::from_zoo_message_using_recipient_subidentity`. -/
def ZooName.fromZooMessageUsingRecipientSubidentity (message : ZooMessage) :
    Except ZooNameError ZooName :=
  match message.body with
  | .unencrypted body =>
    match ZooName.new message.external_metadata.recipient with
    | .error _ => .error (.invalidNameFormat message.external_metadata.recipient)
    | .ok node =>
      let recipientSub : RStr :=
        if body.internal_metadata.recipient_subidentity.isEmpty then []
        else '/' :: body.internal_metadata.recipient_subidentity
      match ZooName.new (node.full_name ++ recipientSub) with
      | .ok name => .ok name
      | .error _ => .error (.invalidNameFormat (node.full_name ++ recipientSub))
  | .encrypted _ =>
    .error (.invalidOperation "Cannot process encrypted ZooMessage".data)

/-! ## Message encryption (`zoo_message_encryption.rs`)

The cryptographic primitives and serializers live in external crates
(`x25519_dalek`, `blake3`, `chacha20poly1305`, `serde_json`, `std` UTF-8),
so they enter the embedding as an abstract interface; the theorems assume
only their defining properties at the points of use.  The random nonce drawn
from `OsRng` is an explicit argument of the encryption operations. -/

/-- Abstract interface of the external cryptographic and serialization
primitives used by `zoo_message_encryption.rs`. -/
structure CryptoPrims where
  dh : Nat → Nat → Nat
  pubOf : Nat → Nat
  hashKey : Nat → Nat
  aeadEnc : Nat → List Nat → List Nat → List Nat
  aeadDec : Nat → List Nat → List Nat → Option (List Nat)
  utf8Enc : RStr → List Nat
  utf8Dec : List Nat → Option RStr
  serBody : ZooBody → List Nat
  deBody : List Nat → Option ZooBody

/-- The shared AEAD key: blake3 of the Diffie-Hellman shared secret
(lines 127-131 / 158-162 / 214-219 / 253-257 of the source). -/
def deriveKey (p : CryptoPrims) (sk pk : Nat) : Nat :=
  p.hashKey (p.dh sk pk)

/-- A `u64` in little-endian bytes (`u64::to_le_bytes`). -/
def le64 (n : Nat) : List Nat :=
  [n % 256, n / 256 % 256, n / 256 ^ 2 % 256, n / 256 ^ 3 % 256,
   n / 256 ^ 4 % 256, n / 256 ^ 5 % 256, n / 256 ^ 6 % 256, n / 256 ^ 7 % 256]

/-- `u64::from_le_bytes` over a byte list. -/
def fromLe64 (l : List Nat) : Nat :=
  l.foldr (fun b acc => b + 256 * acc) 0

/-- The encrypted frame built by `MessageBody::encrypt_message_body`:
`"encrypted:" ++ hex(nonce(12B) || ciphertext)`. -/
def encryptedBodyOf (p : CryptoPrims) (body : ZooBody) (sk pk : Nat)
    (nonce : List Nat) : EncryptedZooBody :=
  let bodyBytes := p.serBody body
  let key := deriveKey p sk pk
  let ciphertext := p.aeadEnc key nonce bodyBytes
  ⟨"encrypted:".data ++ hexEncodeL (nonce ++ ciphertext)⟩

/-- `MessageBody::encrypt_message_body`. -/
def encryptMessageBodyM (p : CryptoPrims) (body : ZooBody) (sk pk : Nat)
    (nonce : List Nat) : Except ZooMessageError MessageBody :=
  .ok (.encrypted (encryptedBodyOf p body sk pk nonce))

/-- `MessageBody::decrypt_message_body`.  `decoded.split_at(12)` panics when
the decoded payload is shorter than 12 bytes; that panic is explicit here. -/
def decryptMessageBodyM (p : CryptoPrims) (eb : EncryptedZooBody) (sk pk : Nat) :
    RustRes (Except ZooMessageError ZooBody) :=
  match splitOnCh ':' eb.content with
  | [] => .returned (.error (.decryptionError "Unexpected variant".data))
  | first :: restParts =>
    if first = "encrypted".data then
      let content := restParts.headD []
      let key := deriveKey p sk pk
      match hexDecodeL content with
      | none => .returned (.error (.decryptionError "Failed to decode hex".data))
      | some decoded =>
        if 12 ≤ decoded.length then
          match p.aeadDec key (decoded.take 12) (decoded.drop 12) with
          | none => .returned (.error (.decryptionError "Decryption failure!".data))
          | some plaintext =>
            match p.deBody plaintext with
            | none => .returned (.error (.decryptionError "Failed to deserialize body".data))
            | some b => .returned (.ok b)
        else .panicked "slice split_at: mid greater than len".data
    else .returned (.error (.decryptionError "Unexpected variant".data))

/-- The encrypted frame built by `MessageData::encrypt_message_data`:
`"encrypted:" ++ hex(len_content(8B LE) || len_schema(8B LE) || nonce(12B)
|| ciphertext)`, where the plaintext is the raw content concatenated with
the schema tag string. -/
def encryptedDataOf (p : CryptoPrims) (data : ZooData) (sk pk : Nat)
    (nonce : List Nat) : EncryptedZooData :=
  let key := deriveKey p sk pk
  let schemaStr := data.message_content_schema.toStr
  let combined := data.message_raw_content ++ schemaStr
  let ciphertext := p.aeadEnc key nonce (p.utf8Enc combined)
  let contentLen := le64 (p.utf8Enc data.message_raw_content).length
  let schemaLen := le64 (p.utf8Enc schemaStr).length
  ⟨"encrypted:".data ++ hexEncodeL (contentLen ++ schemaLen ++ (nonce ++ ciphertext))⟩

/-- `MessageData::encrypt_message_data`. -/
def encryptMessageDataM (p : CryptoPrims) (data : ZooData) (sk pk : Nat)
    (nonce : List Nat) : Except ZooMessageError MessageData :=
  .ok (.encrypted (encryptedDataOf p data sk pk nonce))

/-- `MessageData::decrypt_message_data`.  The three leading `split_at` calls
and the final `split_at(content_len)` panic when the buffer is too short;
those panics are explicit here. -/
def decryptMessageDataM (p : CryptoPrims) (ed : EncryptedZooData) (sk pk : Nat) :
    RustRes (Except ZooMessageError ZooData) :=
  match splitOnCh ':' ed.content with
  | [] => .returned (.error (.decryptionError "Unexpected variant".data))
  | first :: restParts =>
    if first = "encrypted".data then
      let content := restParts.headD []
      let key := deriveKey p sk pk
      match hexDecodeL content with
      | none => .returned (.error (.decryptionError "Failed to decode hex".data))
      | some decoded =>
        if 8 ≤ decoded.length then
          let contentLenBytes := decoded.take 8
          let r1 := decoded.drop 8
          if 8 ≤ r1.length then
            let r2 := r1.drop 8
            if 12 ≤ r2.length then
              let nonce := r2.take 12
              let ciphertext := r2.drop 12
              let contentLen := fromLe64 contentLenBytes
              match p.aeadDec key nonce ciphertext with
              | none => .returned (.error (.decryptionError "Decryption failure!".data))
              | some plaintext =>
                if contentLen ≤ plaintext.length then
                  match p.utf8Dec (plaintext.take contentLen) with
                  | none => .returned (.error (.decryptionError "Failed to decode decrypted content".data))
                  | some c =>
                    match p.utf8Dec (plaintext.drop contentLen) with
                    | none => .returned (.error (.decryptionError "Failed to decode decrypted content schema".data))
                    | some schemaStr =>
                      match MessageSchemaType.fromStr schemaStr with
                      | none => .returned (.error (.decryptionError "Failed to parse schema".data))
                      | some schema => .returned (.ok ⟨c, schema⟩)
                else .panicked "slice split_at: mid greater than len".data
            else .panicked "slice split_at: mid greater than len".data
          else .panicked "slice split_at: mid greater than len".data
        else .panicked "slice split_at: mid greater than len".data
    else .returned (.error (.decryptionError "Unexpected variant".data))

/-- `MessageBody::encrypt`: encrypt an unencrypted body, pass an encrypted
one through. -/
def MessageBody.encryptM (p : CryptoPrims) (mb : MessageBody) (sk pk : Nat)
    (nonce : List Nat) : Except ZooMessageError MessageBody :=
  match mb with
  | .unencrypted body => encryptMessageBodyM p body sk pk nonce
  | .encrypted _ => .ok mb

/-- `MessageBody::decrypt`: decrypt an encrypted body, clone an unencrypted
one. -/
def MessageBody.decryptM (p : CryptoPrims) (mb : MessageBody) (sk pk : Nat) :
    RustRes (Except ZooMessageError ZooBody) :=
  match mb with
  | .encrypted eb => decryptMessageBodyM p eb sk pk
  | .unencrypted body => .returned (.ok body)

/-- `MessageData::encrypt`. -/
def MessageData.encryptM (p : CryptoPrims) (md : MessageData) (sk pk : Nat)
    (nonce : List Nat) : Except ZooMessageError MessageData :=
  match md with
  | .unencrypted data => encryptMessageDataM p data sk pk nonce
  | .encrypted _ => .ok md

/-- `MessageData::decrypt`. -/
def MessageData.decryptM (p : CryptoPrims) (md : MessageData) (sk pk : Nat) :
    RustRes (Except ZooMessageError ZooData) :=
  match md with
  | .encrypted ed => decryptMessageDataM p ed sk pk
  | .unencrypted data => .returned (.ok data)

/-- `ZooMessage::encrypt_outer_layer` (lines 18-42): reject an already
encrypted body or a declared method of `None`, otherwise encrypt the body
and set the method. -/
def ZooMessage.encryptOuterLayer (p : CryptoPrims) (msg : ZooMessage)
    (sk pk : Nat) (nonce : List Nat) : Except ZooMessageError ZooMessage :=
  match msg.body with
  | .encrypted _ => .error (.alreadyEncrypted "Message body is already encrypted".data)
  | .unencrypted _ =>
    if msg.encryption = .none then
      .error (.alreadyEncrypted "Message encryption method is None".data)
    else
      match MessageBody.encryptM p msg.body sk pk nonce with
      | .error e => .error e
      | .ok newBody =>
        .ok { msg with body := newBody, encryption := .diffieHellmanChaChaPoly1305 }

/-- `ZooMessage::decrypt_outer_layer` (lines 56-70): decrypt an encrypted
body; an unencrypted body passes through unchanged. -/
def ZooMessage.decryptOuterLayer (p : CryptoPrims) (msg : ZooMessage)
    (sk pk : Nat) : RustRes (Except ZooMessageError ZooMessage) :=
  match msg.body with
  | .encrypted eb =>
    match decryptMessageBodyM p eb sk pk with
    | .panicked m => .panicked m
    | .returned (.error e) => .returned (.error e)
    | .returned (.ok b) => .returned (.ok { msg with body := .unencrypted b })
  | .unencrypted _ => .returned (.ok msg)

/-- `ZooMessage::decrypt_inner_layer` (lines 72-92): decrypt the inner data
of an unencrypted body; an encrypted body is an error. -/
def ZooMessage.decryptInnerLayer (p : CryptoPrims) (msg : ZooMessage)
    (sk pk : Nat) : RustRes (Except ZooMessageError ZooMessage) :=
  match msg.body with
  | .unencrypted body =>
    match body.message_data with
    | .encrypted ed =>
      match decryptMessageDataM p ed sk pk with
      | .panicked m => .panicked m
      | .returned (.error e) => .returned (.error e)
      | .returned (.ok d) =>
        .returned (.ok { msg with body := .unencrypted { body with message_data := .unencrypted d } })
    | .unencrypted _ => .returned (.ok msg)
  | .encrypted _ =>
    .returned (.error (.encryptionError "Body is encrypted. Cannot decrypt inner layer".data))

/-! ## Identity registry resolver (`zoo_registry.rs`)

Asynchronous effects are made explicit: the external chain fetcher
`get_identity_data` (in `zoo-non-rust-code`, outside src/) is an oracle
parameter, time is a `Nat` of seconds, the `DashMap` cache is an association
list, and a `task::spawn` of a background refresh is counted rather than
run (its only effect visible to the caller is a later cache overwrite). -/

/-- `OnchainIdentity` (the cached registry record); `DateTime<Utc>` is
modelled as seconds. -/
structure OnchainIdentity where
  zoo_identity : RStr
  bound_nft : RStr
  staked_tokens : RStr
  encryption_key : RStr
  signature_key : RStr
  routing : Bool
  address_or_proxy_nodes : List RStr
  delegated_tokens : RStr
  last_updated : Nat
deriving DecidableEq

/-- The identity payload produced by the external chain fetcher, with the
fields `fetch_identity_record` reads. -/
structure IdentityData where
  bound_nft : RStr
  staked_tokens : RStr
  encryption_key : RStr
  signature_key : RStr
  routing : Bool
  address_or_proxy_nodes : List RStr
  delegated_tokens : RStr
  last_updated : Nat
deriving DecidableEq

/-- `ZooRegistryError`, restricted to the variants the embedded operations
produce. -/
inductive ZooRegistryError
  | customError (msg : RStr)
  | systemTimeError
  | identityNotFound (msg : RStr)
  | identityFetchError (msg : RStr)
deriving DecidableEq

/-- `OnchainIdentity::validate_address` (lines 167-190): strip scheme
prefixes, rewrite `localhost:` to the loopback address, append the default
port of the original scheme when no port is present. -/
def validateAddress (firstAddress : RStr) : Except ZooRegistryError RStr :=
  let address := replaceAllL "https://".data [] (replaceAllL "http://".data [] firstAddress)
  let address :=
    if "localhost:".data.isPrefixOf address then
      replaceFirstL "localhost".data "127.0.0.1".data address
    else address
  let address :=
    if !address.contains ':' then
      if "https://".data.isPrefixOf firstAddress then address ++ ":443".data
      else if "http://".data.isPrefixOf firstAddress then address ++ ":80".data
      else address
    else address
  .ok address

/-- The proxy test of `fetch_identity_record` (lines 373-378): the host
portion before the first `:` carries one of the registry-identity
suffixes. -/
def isProxyNodeHost (node : RStr) : Bool :=
  let nodeBase := (splitOnCh ':' node).headD node
  ".sepolia-zoo".data.isSuffixOf nodeBase
    || ".zoo".data.isSuffixOf nodeBase
    || ".sep-zoo".data.isSuffixOf nodeBase

/-- Rust `Vec::join(",")`. -/
def joinComma (l : List RStr) : RStr :=
  List.intercalate ",".data l

/-- Construction of the record from the fetched payload (lines 360-370). -/
def mkOnchainIdentity (identity : RStr) (d : IdentityData) : OnchainIdentity :=
  { zoo_identity := identity
    bound_nft := d.bound_nft
    staked_tokens := d.staked_tokens
    encryption_key := d.encryption_key
    signature_key := d.signature_key
    routing := d.routing
    address_or_proxy_nodes := d.address_or_proxy_nodes
    delegated_tokens := d.delegated_tokens
    last_updated := d.last_updated }

/-- The external `get_identity_data` call: fetch failure, no record, or a
payload. -/
abbrev FetchOracle := RStr → Except RStr (Option IdentityData)

/-- `ZooRegistry::fetch_identity_record` (lines 337-406), returning the
result together with the number of `get_identity_data` calls made: one
lookup, then at most one proxy re-resolution keyed by the comma-joined
endpoint list, which replaces only the endpoint field. -/
def fetchIdentityRecord (oracle : FetchOracle) (identity : RStr) :
    Except ZooRegistryError OnchainIdentity × Nat :=
  match oracle identity with
  | .error e => (.error (.identityFetchError e), 1)
  | .ok none => (.error (.identityNotFound identity), 1)
  | .ok (some d) =>
    let onchainIdentity := mkOnchainIdentity identity d
    if onchainIdentity.address_or_proxy_nodes.any isProxyNodeHost then
      let proxyKey := joinComma onchainIdentity.address_or_proxy_nodes
      match oracle proxyKey with
      | .error e => (.error (.identityFetchError e), 2)
      | .ok none => (.error (.identityNotFound proxyKey), 2)
      | .ok (some d2) =>
        (.ok { onchainIdentity with address_or_proxy_nodes := d2.address_or_proxy_nodes }, 2)
    else (.ok onchainIdentity, 1)

/-- The registry cache: identity key to (fetch time, record). -/
abbrev RegistryCache := List (RStr × (Nat × OnchainIdentity))

/-- `DashMap::get`. -/
def lookupCache : RegistryCache → RStr → Option (Nat × OnchainIdentity)
  | [], _ => none
  | (k, v) :: rest, key => if k = key then some v else lookupCache rest key

/-- `DashMap::insert` (overwrite). -/
def insertCache (key : RStr) (v : Nat × OnchainIdentity) (c : RegistryCache) :
    RegistryCache :=
  (key, v) :: c.filter (fun e => e.1 ≠ key)

/-- `ZooRegistry::update_cache` (lines 316-331): fetch, then write the cache
only on success.  Returns the result, the cache afterwards, and the number
of `get_identity_data` calls. -/
def updateCache (oracle : FetchOracle) (cache : RegistryCache) (now : Nat)
    (identity : RStr) :
    Except ZooRegistryError OnchainIdentity × RegistryCache × Nat :=
  match fetchIdentityRecord oracle identity with
  | (.error e, n) => (.error e, cache, n)
  | (.ok record, n) => (.ok record, insertCache identity (now, record) cache, n)

/-- `CACHE_TIME`: 30 minutes, in seconds. -/
def CACHE_TIME : Nat := 60 * 30

/-- `CACHE_NO_UPDATE`: 15 minutes, in seconds. -/
def CACHE_NO_UPDATE : Nat := 60 * 15

/-- Decidable equality for `Except`, used to evaluate outcomes on concrete
inputs. -/
instance instDecEqExcept {ε α : Type} [DecidableEq ε] [DecidableEq α] :
    DecidableEq (Except ε α) := fun x y =>
  match x, y with
  | .error a, .error b =>
    if h : a = b then .isTrue (by rw [h]) else .isFalse (by intro hh; cases hh; exact h rfl)
  | .ok a, .ok b =>
    if h : a = b then .isTrue (by rw [h]) else .isFalse (by intro hh; cases hh; exact h rfl)
  | .error _, .ok _ => .isFalse (by intro hh; cases hh)
  | .ok _, .error _ => .isFalse (by intro hh; cases hh)

/-- Observable outcome of one `get_identity_record` call: its result, the
cache it leaves behind, the number of background refresh tasks it spawned
and the number of blocking (synchronous) `update_cache` fetches it ran. -/
structure GetOutcome where
  result : Except ZooRegistryError OnchainIdentity
  cacheAfter : RegistryCache
  bgRefreshes : Nat
  syncFetches : Nat
deriving DecidableEq

/-- The key normalization at the top of `get_identity_record` (lines
257-261): strip leading `@@`. -/
def stripLeadingAtAt (identity : RStr) : RStr :=
  if "@@".data.isPrefixOf identity then trimLeadingAtAt identity else identity

/-- `ZooRegistry::get_identity_record` (lines 252-314): strip a leading
`@@`, then the three freshness zones — fresh (return cached), stale
(return cached, spawn one background refresh), expired / miss /
`force_refresh` (blocking `update_cache`).  `SystemTime::duration_since`
errors when the entry is from the future. -/
def getIdentityRecord (oracle : FetchOracle) (cache : RegistryCache)
    (now : Nat) (identity : RStr) (forceRefresh : Option Bool) : GetOutcome :=
  let identity := stripLeadingAtAt identity
  let fr := forceRefresh.getD false
  let updatePath : GetOutcome :=
    match updateCache oracle cache now identity with
    | (res, cacheAfter, _) =>
      { result := res, cacheAfter := cacheAfter, bgRefreshes := 0, syncFetches := 1 }
  if fr then updatePath
  else
    match lookupCache cache identity with
    | some (lastUpdated, record) =>
      if now < lastUpdated then
        { result := .error .systemTimeError, cacheAfter := cache
          bgRefreshes := 0, syncFetches := 0 }
      else if now - lastUpdated < CACHE_NO_UPDATE then
        { result := .ok record, cacheAfter := cache, bgRefreshes := 0, syncFetches := 0 }
      else if now - lastUpdated < CACHE_TIME then
        { result := .ok record, cacheAfter := cache, bgRefreshes := 1, syncFetches := 0 }
      else updatePath
    | none => updatePath


/-! ## Helper predicates and concrete fixtures used by the theorems -/

/-- True exactly on a panic outcome. -/
def isPanicRes {α : Type} : RustRes α → Bool
  | .panicked _ => true
  | .returned _ => false

/-- True exactly on `Err(AlreadyEncrypted(_))`. -/
def isAlreadyEncryptedErr : Except ZooMessageError ZooMessage → Bool
  | .error (.alreadyEncrypted _) => true
  | _ => false

/-- True exactly on the encrypted body variant. -/
def isEncryptedMB : MessageBody → Bool
  | .encrypted _ => true
  | .unencrypted _ => false

/-- True exactly on `Err(InvalidNameFormat(_))`. -/
def isInvalidNameFormatErr : Except ZooNameError ZooName → Bool
  | .error (.invalidNameFormat _) => true
  | _ => false

/-- A concrete unencrypted body. -/
def toyBody : ZooBody :=
  { message_data := .unencrypted ⟨"hi".data, .textContent⟩
    internal_metadata := ⟨[], []⟩ }

/-- A concrete inner payload. -/
def toyData : ZooData := ⟨"hi".data, .textContent⟩

/-- A concrete instantiation of the abstract primitive interface, used to
discharge the hypotheses of the round-trip theorems at one point. -/
def toyPrims : CryptoPrims :=
  { dh := fun a b => a * b
    pubOf := id
    hashKey := id
    aeadEnc := fun _ _ m => m
    aeadDec := fun _ _ c => some c
    utf8Enc := fun s => s.map Char.toNat
    utf8Dec := fun l => some (l.map Char.ofNat)
    serBody := fun _ => [7]
    deBody := fun _ => some toyBody }

/-- A concrete 12-byte nonce. -/
def toyNonce : List Nat := List.replicate 12 0

/-- A concrete message whose body is in the encrypted state. -/
def encBodyMsg : ZooMessage :=
  { body := .encrypted ⟨"encrypted:ab".data⟩
    encryption := .diffieHellmanChaChaPoly1305
    external_metadata := ⟨"@@alice.zoo".data, "@@bob.zoo".data⟩ }

/-- A concrete message with an unencrypted body and subidentity fields. -/
def unencBodyMsg : ZooMessage :=
  { body := .unencrypted
      { message_data := .unencrypted ⟨"hi".data, .textContent⟩
        internal_metadata := ⟨"main".data, "work".data⟩ }
    encryption := .diffieHellmanChaChaPoly1305
    external_metadata := ⟨"@@alice.zoo".data, "@@bob.zoo".data⟩ }

/-- A concrete cached record. -/
def toyRecord : OnchainIdentity :=
  { zoo_identity := "alice.zoo".data, bound_nft := "9n".data
    staked_tokens := [], encryption_key := [], signature_key := []
    routing := false, address_or_proxy_nodes := ["1.2.3.4:9552".data]
    delegated_tokens := [], last_updated := 0 }

/-- A concrete fetched payload with plain (non-proxy) endpoints. -/
def toyPayload : IdentityData :=
  { bound_nft := "7n".data, staked_tokens := [], encryption_key := []
    signature_key := [], routing := false
    address_or_proxy_nodes := ["5.6.7.8:9552".data]
    delegated_tokens := [], last_updated := 5 }

/-- A concrete fetched payload whose endpoint carries a proxy suffix. -/
def proxyPayload : IdentityData :=
  { toyPayload with address_or_proxy_nodes := ["relay.sep-zoo:9552".data, "x.com:1".data] }

/-- An oracle that always finds `toyPayload`. -/
def toyOracle : FetchOracle := fun _ => .ok (some toyPayload)

/-- An oracle giving a proxy-suffixed record for `me`, and a plain record
for the comma-joined proxy key. -/
def proxyOracle : FetchOracle := fun s =>
  if s = "me".data then .ok (some proxyPayload)
  else if s = joinComma proxyPayload.address_or_proxy_nodes then .ok (some toyPayload)
  else .ok none

/-- An oracle that always fails. -/
def failOracle : FetchOracle := fun _ => .error "boom".data

/-- The parse of `@@alice.zoo`. -/
def nameAlice : ZooName :=
  { full_name := "@@alice.zoo".data, node_name := "@@alice.zoo".data
    profile_name := none, subidentity_type := none, subidentity_name := none }

/-- The parse of `@@alice.zoo/main`. -/
def nameAliceMain : ZooName :=
  { full_name := "@@alice.zoo/main".data, node_name := "@@alice.zoo".data
    profile_name := some "main".data, subidentity_type := none
    subidentity_name := none }

/-- A concrete cache holding `toyRecord` fetched at time 1000. -/
def toyCache : RegistryCache := [("alice.zoo".data, (1000, toyRecord))]

/-! ## Theorems -/

theorem hexDigitVal_hexDigitCh {d : Nat} (h : d < 16) :
    hexDigitVal (hexDigitCh d) = some d := by
  interval_cases d <;> rfl

theorem hexDigitCh_ne_colon {d : Nat} (h : d < 16) : hexDigitCh d ≠ ':' := by
  interval_cases d <;> decide

theorem hexDecodeL_hexEncodeL (l : List Nat) (h : ∀ b ∈ l, b < 256) :
    hexDecodeL (hexEncodeL l) = some l := by
  induction l with
  | nil => rfl
  | cons b t ih =>
    have hb : b < 256 := h b (List.mem_cons_self _ _)
    have hdiv : b / 16 < 16 := by omega
    have hmod : b % 16 < 16 := by omega
    have ht : hexDecodeL (hexEncodeL t) = some t :=
      ih (fun x hx => h x (List.mem_cons_of_mem _ hx))
    simp only [hexEncodeL] at ht
    simp only [hexEncodeL, List.flatMap_cons, List.cons_append, List.nil_append]
    simp only [hexDecodeL, hexDigitVal_hexDigitCh hdiv, hexDigitVal_hexDigitCh hmod, ht]
    have hb16 : 16 * (b / 16) + b % 16 = b := by omega
    rw [hb16]

theorem mem_hexEncodeL_ne_colon (l : List Nat) (h : ∀ b ∈ l, b < 256)
    (c : Char) (hc : c ∈ hexEncodeL l) : c ≠ ':' := by
  simp only [hexEncodeL, List.mem_flatMap] at hc
  obtain ⟨b, hb, hcb⟩ := hc
  have hb256 : b < 256 := h b hb
  have hdiv : b / 16 < 16 := by omega
  have hmod : b % 16 < 16 := by omega
  simp only [List.mem_cons, List.mem_singleton] at hcb
  rcases hcb with rfl | hcb
  · exact hexDigitCh_ne_colon hdiv
  · rcases hcb with rfl | hfalse
    · exact hexDigitCh_ne_colon hmod
    · exact absurd hfalse (List.not_mem_nil c)

theorem splitOnCh_no_sep (sep : Char) (t : RStr) (h : ∀ c ∈ t, c ≠ sep) :
    splitOnCh sep t = [t] := by
  induction t with
  | nil => rfl
  | cons c rest ih =>
    have hc : c ≠ sep := h c (List.mem_cons_self _ _)
    have hrest := ih (fun x hx => h x (List.mem_cons_of_mem _ hx))
    simp only [splitOnCh, if_neg hc, hrest]

theorem splitOnCh_append_sep (sep : Char) (a t : RStr) (h : ∀ c ∈ a, c ≠ sep) :
    splitOnCh sep (a ++ sep :: t) = a :: splitOnCh sep t := by
  induction a with
  | nil => simp [splitOnCh]
  | cons c rest ih =>
    have hc : c ≠ sep := h c (List.mem_cons_self _ _)
    have hrest := ih (fun x hx => h x (List.mem_cons_of_mem _ hx))
    rw [List.cons_append]
    simp only [splitOnCh, if_neg hc]
    rw [hrest]


/-- C7: endpoint normalization maps each input of the address table to
exactly the stated output: `http://localhost:8080` to `127.0.0.1:8080`,
`https://localhost` to `localhost:443`, `http://example.com` to
`example.com:80`, `https://example.com` to `example.com:443`, and
`example.com:1234` to `example.com:1234`. -/
theorem c7_validate_address_table :
    validateAddress "http://localhost:8080".data = .ok "127.0.0.1:8080".data ∧
    validateAddress "https://localhost".data = .ok "localhost:443".data ∧
    validateAddress "http://example.com".data = .ok "example.com:80".data ∧
    validateAddress "https://example.com".data = .ok "example.com:443".data ∧
    validateAddress "example.com:1234".data = .ok "example.com:1234".data := by
  decide

/-- C10: the per-segment pattern accepts the empty string, so
`ZooName::new` accepts identity strings with an empty trailing segment:
`@@alice.zoo/` parses with `profile_name = Some("")`, and
`@@alice.zoo/p/agent/` parses with `subidentity_name = Some("")` (the empty
fourth segment also satisfies the fourth-part-exists check). -/
theorem c10_empty_trailing_segments :
    ZooName.new "@@alice.zoo/".data =
      .ok { full_name := "@@alice.zoo/".data, node_name := "@@alice.zoo".data
            profile_name := some [], subidentity_type := none
            subidentity_name := none } ∧
    ZooName.new "@@alice.zoo/p/agent/".data =
      .ok { full_name := "@@alice.zoo/p/agent/".data
            node_name := "@@alice.zoo".data, profile_name := some "p".data
            subidentity_type := some .agent, subidentity_name := some [] } := by
  decide

/-- C2: the claim that `decrypt_outer_layer` and `decrypt_inner_layer`
never panic is false of the code: a content string `"encrypted:"` whose hex
payload decodes to fewer than 12 (outer) or 8 (inner) bytes drives
`decoded.split_at(..)` into its `mid > len` panic, for every key pair. -/
theorem c2_short_payload_panics (p : CryptoPrims) (sk pk : Nat) :
    isPanicRes (ZooMessage.decryptOuterLayer p
      { body := .encrypted ⟨"encrypted:".data⟩
        encryption := .diffieHellmanChaChaPoly1305
        external_metadata := ⟨[], []⟩ } sk pk) = true ∧
    isPanicRes (ZooMessage.decryptInnerLayer p
      { body := .unencrypted
          { message_data := .encrypted ⟨"encrypted:".data⟩
            internal_metadata := ⟨[], []⟩ }
        encryption := .diffieHellmanChaChaPoly1305
        external_metadata := ⟨[], []⟩ } sk pk) = true := by
  exact ⟨rfl, rfl⟩

/-- C5: `encrypt_outer_layer` yields an `AlreadyEncrypted` error exactly
when the body is already in the encrypted representation or the declared
encryption method is `None`; on that error path no message is produced, so
the original (an immutable `&self` in the source) is unchanged. -/
theorem c5_encrypt_outer_precondition (p : CryptoPrims) (msg : ZooMessage)
    (sk pk : Nat) (nonce : List Nat) :
    isAlreadyEncryptedErr (ZooMessage.encryptOuterLayer p msg sk pk nonce)
      = (isEncryptedMB msg.body || decide (msg.encryption = .none)) := by
  obtain ⟨body, enc, meta⟩ := msg
  cases body <;> cases enc <;> rfl

/-- C9: counterexample — on a message whose body is encrypted, the
sender-side constructor fails with `MessageBodyMissing` and the
recipient-side constructor with `InvalidOperation`, not with the
`InvalidNameFormat` error the claim states. -/
theorem c9_counterexample :
    ZooName.fromZooMessageUsingSenderSubidentity encBodyMsg
      = .error .messageBodyMissing ∧
    ZooName.fromZooMessageUsingRecipientSubidentity encBodyMsg
      = .error (.invalidOperation "Cannot process encrypted ZooMessage".data) ∧
    isInvalidNameFormatErr (ZooName.fromZooMessageUsingSenderSubidentity encBodyMsg) = false ∧
    isInvalidNameFormatErr (ZooName.fromZooMessageUsingRecipientSubidentity encBodyMsg) = false := by
  decide

/-- C9 (amended): constructing an identity from a message's sender
(recipient) field plus the internal subidentity suffix fails with a
`MessageBodyMissing` (`InvalidOperation`) error — not `InvalidNameFormat` —
whenever the message body is in the encrypted state; on an unencrypted body
it concatenates node and `/subidentity` (omitting the suffix when the
subidentity field is empty) and re-validates the result. -/
theorem c9_subidentity_constructors (msg : ZooMessage) :
    (∀ eb, msg.body = .encrypted eb →
      ZooName.fromZooMessageUsingSenderSubidentity msg = .error .messageBodyMissing ∧
      ZooName.fromZooMessageUsingRecipientSubidentity msg
        = .error (.invalidOperation "Cannot process encrypted ZooMessage".data)) ∧
    (∀ body node name, msg.body = .unencrypted body →
      ZooName.new msg.external_metadata.sender = .ok node →
      ZooName.new (node.full_name ++
        (if body.internal_metadata.sender_subidentity.isEmpty then []
         else '/' :: body.internal_metadata.sender_subidentity)) = .ok name →
      ZooName.fromZooMessageUsingSenderSubidentity msg = .ok name) ∧
    (∀ body node name, msg.body = .unencrypted body →
      ZooName.new msg.external_metadata.recipient = .ok node →
      ZooName.new (node.full_name ++
        (if body.internal_metadata.recipient_subidentity.isEmpty then []
         else '/' :: body.internal_metadata.recipient_subidentity)) = .ok name →
      ZooName.fromZooMessageUsingRecipientSubidentity msg = .ok name) := by
  refine ⟨?_, ?_, ?_⟩
  · intro eb heb
    unfold ZooName.fromZooMessageUsingSenderSubidentity
      ZooName.fromZooMessageUsingRecipientSubidentity
    rw [heb]
    exact ⟨rfl, rfl⟩
  · intro body node name hbody hnode hname
    unfold ZooName.fromZooMessageUsingSenderSubidentity
    rw [hbody, hnode]
    simp only [hname]
  · intro body node name hbody hnode hname
    unfold ZooName.fromZooMessageUsingRecipientSubidentity
    rw [hbody, hnode]
    simp only [hname]

/-- Witness for `c9_subidentity_constructors` at two concrete messages. -/
theorem c9_subidentity_constructors_witness :
    (ZooName.fromZooMessageUsingSenderSubidentity encBodyMsg
        = .error .messageBodyMissing ∧
      ZooName.fromZooMessageUsingRecipientSubidentity encBodyMsg
        = .error (.invalidOperation "Cannot process encrypted ZooMessage".data)) ∧
    ZooName.fromZooMessageUsingSenderSubidentity unencBodyMsg = .ok nameAliceMain :=
  ⟨(c9_subidentity_constructors encBodyMsg).1 ⟨"encrypted:ab".data⟩ rfl,
   (c9_subidentity_constructors unencBodyMsg).2.1
     { message_data := .unencrypted ⟨"hi".data, .textContent⟩
       internal_metadata := ⟨"main".data, "work".data⟩ }
     nameAlice nameAliceMain rfl (by decide) (by decide)⟩

/-- C8: `update_cache` writes the cache only after its fetch succeeds: on a
fetch error or not-found the cache is returned unchanged (existing entries
keep their value, no new entry appears), and on success the entry for the
identity holds the fresh `(now, record)` pair. -/
theorem c8_update_cache_on_failure (oracle : FetchOracle) (cache : RegistryCache)
    (now : Nat) (identity : RStr) :
    (∀ e, (updateCache oracle cache now identity).1 = .error e →
      (updateCache oracle cache now identity).2.1 = cache) ∧
    (∀ r, (updateCache oracle cache now identity).1 = .ok r →
      lookupCache (updateCache oracle cache now identity).2.1 identity
        = some (now, r)) := by
  unfold updateCache
  cases hf : fetchIdentityRecord oracle identity with
  | mk res n =>
    cases res with
    | error e0 =>
      refine ⟨fun e he => rfl, fun r hr => ?_⟩
      exact absurd hr (by simp)
    | ok r0 =>
      refine ⟨fun e he => absurd he (by simp), fun r hr => ?_⟩
      have hr0 : r0 = r := by
        have := hr
        simp only [Except.ok.injEq] at this
        exact this
      subst hr0
      simp [insertCache, lookupCache]

/-- Witness for `c8_update_cache_on_failure`: a failing oracle leaves the
concrete cache untouched; a succeeding one installs the fresh entry. -/
theorem c8_update_cache_on_failure_witness :
    (updateCache failOracle toyCache 0 "alice.zoo".data).2.1 = toyCache ∧
    lookupCache (updateCache toyOracle toyCache 3400 "alice.zoo".data).2.1
      "alice.zoo".data = some (3400, mkOnchainIdentity "alice.zoo".data toyPayload) :=
  ⟨(c8_update_cache_on_failure failOracle toyCache 0 "alice.zoo".data).1
      (.identityFetchError "boom".data) (by decide),
   (c8_update_cache_on_failure toyOracle toyCache 3400 "alice.zoo".data).2
      (mkOnchainIdentity "alice.zoo".data toyPayload) (by decide)⟩

/-- C6: when the first lookup's endpoint list contains a proxy-suffixed
host, `fetch_identity_record` performs exactly one secondary lookup — two
oracle calls in total, and never more than two on any input, even if the
second result again contains proxy-suffixed hosts — keyed by the
comma-joined endpoint list; the returned record equals the first record in
every field except `address_or_proxy_nodes`, which is replaced by the
second lookup's endpoint list, and a second lookup finding no record is an
`IdentityNotFound` error. -/
theorem c6_proxy_indirection (oracle : FetchOracle) (identity : RStr)
    (d1 : IdentityData)
    (h1 : oracle identity = .ok (some d1))
    (hproxy : d1.address_or_proxy_nodes.any isProxyNodeHost = true) :
    (fetchIdentityRecord oracle identity).2 = 2 ∧
    (∀ d2, oracle (joinComma d1.address_or_proxy_nodes) = .ok (some d2) →
      (fetchIdentityRecord oracle identity).1
        = .ok { mkOnchainIdentity identity d1 with
                address_or_proxy_nodes := d2.address_or_proxy_nodes }) ∧
    (oracle (joinComma d1.address_or_proxy_nodes) = .ok none →
      (fetchIdentityRecord oracle identity).1
        = .error (.identityNotFound (joinComma d1.address_or_proxy_nodes))) ∧
    (∀ orc key, (fetchIdentityRecord orc key).2 ≤ 2) := by
  have hnodes : (mkOnchainIdentity identity d1).address_or_proxy_nodes
      = d1.address_or_proxy_nodes := rfl
  refine ⟨?_, ?_, ?_, ?_⟩
  · unfold fetchIdentityRecord
    rw [h1]
    simp only [hnodes, hproxy, if_pos]
    cases oracle (joinComma d1.address_or_proxy_nodes) with
    | error e => rfl
    | ok od => cases od <;> rfl
  · intro d2 h2
    unfold fetchIdentityRecord
    rw [h1]
    simp only [hnodes, hproxy, if_pos, h2]
  · intro h2
    unfold fetchIdentityRecord
    rw [h1]
    simp only [hnodes, hproxy, if_pos, h2]
  · intro orc key
    unfold fetchIdentityRecord
    cases orc key with
    | error e => dsimp only; omega
    | ok od =>
      cases od with
      | none => dsimp only; omega
      | some d =>
        dsimp only
        split
        · cases orc (joinComma (mkOnchainIdentity key d).address_or_proxy_nodes) with
          | error e => dsimp only; omega
          | ok od2 =>
            cases od2 with
            | none => dsimp only; omega
            | some d2 => dsimp only; omega
        · dsimp only; omega

/-- Witness for `c6_proxy_indirection` at a concrete oracle whose first
lookup returns a proxy-suffixed endpoint list. -/
theorem c6_proxy_indirection_witness :
    (fetchIdentityRecord proxyOracle "me".data).2 = 2 ∧
    (fetchIdentityRecord proxyOracle "me".data).1
      = .ok { mkOnchainIdentity "me".data proxyPayload with
              address_or_proxy_nodes := toyPayload.address_or_proxy_nodes } :=
  have h := c6_proxy_indirection proxyOracle "me".data proxyPayload
    (by decide) (by decide)
  ⟨h.1, h.2.1 toyPayload (by decide)⟩

/-- C3: the three cache-freshness zones of `get_identity_record`: a record
cached at `T0` and queried without `force_refresh` at `T0+10min` is
returned from cache with zero fetches and zero background refreshes; at
`T0+20min` it is returned from cache with exactly one background refresh
spawned; at `T0+40min` (or on a cache miss, or with `force_refresh=true`)
exactly one blocking fetch runs, and on success the cache holds the fresh
record stamped with the query time. -/
theorem c3_cache_freshness_zones (oracle : FetchOracle) (cache : RegistryCache)
    (identity : RStr) (t0 : Nat) (rec : OnchainIdentity)
    (hcached : lookupCache cache (stripLeadingAtAt identity) = some (t0, rec)) :
    getIdentityRecord oracle cache (t0 + 600) identity none
      = { result := .ok rec, cacheAfter := cache, bgRefreshes := 0, syncFetches := 0 } ∧
    getIdentityRecord oracle cache (t0 + 1200) identity none
      = { result := .ok rec, cacheAfter := cache, bgRefreshes := 1, syncFetches := 0 } ∧
    getIdentityRecord oracle cache (t0 + 2400) identity none
      = { result := (updateCache oracle cache (t0 + 2400) (stripLeadingAtAt identity)).1
          cacheAfter := (updateCache oracle cache (t0 + 2400) (stripLeadingAtAt identity)).2.1
          bgRefreshes := 0, syncFetches := 1 } ∧
    (∀ r, (fetchIdentityRecord oracle (stripLeadingAtAt identity)).1 = .ok r →
      lookupCache (getIdentityRecord oracle cache (t0 + 2400) identity none).cacheAfter
        (stripLeadingAtAt identity) = some (t0 + 2400, r)) ∧
    (∀ cache2, lookupCache cache2 (stripLeadingAtAt identity) = none →
      (getIdentityRecord oracle cache2 (t0 + 600) identity none).syncFetches = 1) ∧
    (getIdentityRecord oracle cache (t0 + 600) identity (some true)).syncFetches = 1 := by
  refine ⟨?_, ?_, ?_, ?_, ?_, ?_⟩
  · have h1 : ¬ (t0 + 600 < t0) := by omega
    simp [getIdentityRecord, hcached, h1, CACHE_NO_UPDATE, CACHE_TIME]
  · have h1 : ¬ (t0 + 1200 < t0) := by omega
    simp [getIdentityRecord, hcached, h1, CACHE_NO_UPDATE, CACHE_TIME]
  · have h1 : ¬ (t0 + 2400 < t0) := by omega
    cases hu : updateCache oracle cache (t0 + 2400) (stripLeadingAtAt identity) with
    | mk res rest =>
      simp [getIdentityRecord, hcached, h1, hu, CACHE_NO_UPDATE, CACHE_TIME]
  · intro r hr
    have h1 : ¬ (t0 + 2400 < t0) := by omega
    cases hf : fetchIdentityRecord oracle (stripLeadingAtAt identity) with
    | mk res n =>
      rw [hf] at hr
      simp only at hr
      subst hr
      simp [getIdentityRecord, updateCache, hcached, h1, hf,
        insertCache, lookupCache, CACHE_NO_UPDATE, CACHE_TIME]
  · intro cache2 h2
    cases hu : updateCache oracle cache2 (t0 + 600) (stripLeadingAtAt identity) with
    | mk res rest => simp [getIdentityRecord, h2, hu]
  · cases hu : updateCache oracle cache (t0 + 600) (stripLeadingAtAt identity) with
    | mk res rest => simp [getIdentityRecord, hu]

/-- Witness for `c3_cache_freshness_zones` at a concrete cache and oracle:
the fresh zone returns the cached record without touching anything. -/
theorem c3_cache_freshness_zones_witness :
    getIdentityRecord toyOracle toyCache 1600 "@@alice.zoo".data none
      = { result := .ok toyRecord, cacheAfter := toyCache
          bgRefreshes := 0, syncFetches := 0 } ∧
    getIdentityRecord toyOracle toyCache 2200 "@@alice.zoo".data none
      = { result := .ok toyRecord, cacheAfter := toyCache
          bgRefreshes := 1, syncFetches := 0 } :=
  have h := c3_cache_freshness_zones toyOracle toyCache "@@alice.zoo".data
    1000 toyRecord (by decide)
  ⟨h.1, h.2.1⟩

/-- If `validate_name` accepts a string, its per-part loop accepted every
part. -/
theorem validateName_ok_checkParts (raw : RStr) (h : validateName raw = .ok ()) :
    checkParts 0 (splitOnCh '/' raw) = .ok () := by
  simp only [validateName] at h
  split at h
  · exact absurd h (by simp)
  split at h
  · exact absurd h (by simp)
  split at h
  · exact absurd h (by simp)
  cases hcp : checkParts 0 (splitOnCh '/' raw) with
  | error e => rw [hcp] at h; exact absurd h (by simp)
  | ok u => rfl

/-- If the per-part loop accepts a list with a third part, that part is
`agent` or `device`. -/
theorem checkParts_third (p0 p1 p2 : RStr) (rest : List RStr)
    (h : checkParts 0 (p0 :: p1 :: p2 :: rest) = .ok ()) :
    p2 = "agent".data ∨ p2 = "device".data := by
  by_cases hA : p2 = "agent".data
  · exact Or.inl hA
  by_cases hD : p2 = "device".data
  · exact Or.inr hD
  exfalso
  simp only [checkParts] at h
  simp [hA, hD] at h
  split at h <;> try simp_all
  split at h <;> simp_all

/-- C4: `ZooName::new` is total — for every input string it either parses
or returns a format error, and its internal panic branch for an
unrecognized third segment is unreachable, because `validate_name` runs
first and rejects any third segment other than `agent` or `device`; in
particular every string violating the grammar surfaces the format error
produced by `validate_name`. -/
theorem c4_new_never_panics (rawName : RStr) :
    isPanicOutcome (ZooName.new rawName) = false ∧
    (∀ m, validateName (correctNodeName rawName) = .error m →
      ZooName.new rawName = .error (.fmt m)) := by
  constructor
  · simp only [ZooName.new]
    cases hv : validateName (correctNodeName rawName) with
    | error m => simp [isPanicOutcome]
    | ok u =>
      cases u
      have hcp := validateName_ok_checkParts _ hv
      generalize hps : splitOnCh '/' (correctNodeName rawName) = parts at hcp ⊢
      rcases parts with _ | ⟨a, _ | ⟨b, _ | ⟨c, t⟩⟩⟩
      · simp [isPanicOutcome]
      · simp [isPanicOutcome]
      · simp [isPanicOutcome]
      · rcases checkParts_third a b c t hcp with h | h <;> subst h <;>
          simp [isPanicOutcome]
  · intro m hm
    simp only [ZooName.new, hm]

/-- Witness for `c4_new_never_panics`: a string with an invalid third
segment gets the format error, not the panic. -/
theorem c4_new_never_panics_witness :
    isPanicOutcome (ZooName.new "@@alice.zoo/p/x/y".data) = false ∧
    ZooName.new "@@alice.zoo/p/x/y".data
      = .error (.fmt "The third part should either be agent or device.".data) :=
  ⟨(c4_new_never_panics "@@alice.zoo/p/x/y".data).1,
   (c4_new_never_panics "@@alice.zoo/p/x/y".data).2
     "The third part should either be agent or device.".data (by decide)⟩

/-- The schema tag string round-trips through its parse. -/
theorem fromStr_toStr (s : MessageSchemaType) :
    MessageSchemaType.fromStr s.toStr = some s := by
  cases s <;> rfl

/-- Little-endian `u64` bytes are bytes. -/
theorem le64_bytes (n : Nat) : ∀ b ∈ le64 n, b < 256 := by
  intro b hb
  simp [le64] at hb
  omega

/-- `u64::from_le_bytes` inverts `u64::to_le_bytes` below `2^64`. -/
theorem fromLe64_le64 (n : Nat) (h : n < 256 ^ 8) : fromLe64 (le64 n) = n := by
  simp [fromLe64, le64]
  omega

/-- Outer-layer inverse: `decrypt_message_body` recovers the body from the
frame `encrypt_message_body` built, given the Diffie-Hellman symmetry, AEAD
round trip and serializer round trip at this body. -/
theorem decryptBodyM_roundtrip (p : CryptoPrims) (skA skB : Nat) (body : ZooBody)
    (nonce1 : List Nat)
    (hn1len : nonce1.length = 12) (hn1b : ∀ b ∈ nonce1, b < 256)
    (hdh : p.dh skB (p.pubOf skA) = p.dh skA (p.pubOf skB))
    (hctb : ∀ b ∈ p.aeadEnc (deriveKey p skA (p.pubOf skB)) nonce1 (p.serBody body), b < 256)
    (haead1 : p.aeadDec (deriveKey p skA (p.pubOf skB)) nonce1
        (p.aeadEnc (deriveKey p skA (p.pubOf skB)) nonce1 (p.serBody body))
      = some (p.serBody body))
    (hser : p.deBody (p.serBody body) = some body) :
    decryptMessageBodyM p (encryptedBodyOf p body skA (p.pubOf skB) nonce1)
      skB (p.pubOf skA) = .returned (.ok body) := by
  have hkeyEq : deriveKey p skB (p.pubOf skA) = deriveKey p skA (p.pubOf skB) := by
    unfold deriveKey
    rw [hdh]
  set ct := p.aeadEnc (deriveKey p skA (p.pubOf skB)) nonce1 (p.serBody body) with hct
  have hbytes : ∀ b ∈ nonce1 ++ ct, b < 256 := by
    intro b hb
    rcases List.mem_append.1 hb with h | h
    · exact hn1b _ h
    · exact hctb _ h
  have hnocol : ∀ c ∈ hexEncodeL (nonce1 ++ ct), c ≠ ':' :=
    fun c hc => mem_hexEncodeL_ne_colon _ hbytes c hc
  have hsplit : splitOnCh ':' ("encrypted:".data ++ hexEncodeL (nonce1 ++ ct))
      = ["encrypted".data, hexEncodeL (nonce1 ++ ct)] := by
    have hform : ("encrypted:".data ++ hexEncodeL (nonce1 ++ ct))
        = "encrypted".data ++ ':' :: hexEncodeL (nonce1 ++ ct) := rfl
    rw [hform, splitOnCh_append_sep _ _ _ (by decide),
      splitOnCh_no_sep _ _ hnocol]
  have hlen : 12 ≤ (nonce1 ++ ct).length := by
    rw [List.length_append, hn1len]
    omega
  have htake : (nonce1 ++ ct).take 12 = nonce1 := by
    rw [← hn1len]
    exact List.take_left nonce1 ct
  have hdrop : (nonce1 ++ ct).drop 12 = ct := by
    rw [← hn1len]
    exact List.drop_left nonce1 ct
  simp only [encryptedBodyOf, decryptMessageBodyM, hsplit]
  simp only [List.headD_cons, hexDecodeL_hexEncodeL _ hbytes, if_pos hlen,
    htake, hdrop, hkeyEq, haead1, hser]
  simp

/-- An encoded `u64` is 8 bytes. -/
theorem le64_length (n : Nat) : (le64 n).length = 8 := rfl

/-- Inner-layer inverse over an arbitrary well-formed frame
`len_content || len_schema || nonce || ciphertext`: `decrypt_message_data`
recovers content and schema. -/
theorem decryptDataM_frame (p : CryptoPrims) (sk pk clen slen : Nat)
    (nonce ct pt : List Nat) (content schemaStr : RStr)
    (schema : MessageSchemaType)
    (hnlen : nonce.length = 12) (hnb : ∀ b ∈ nonce, b < 256)
    (hctb : ∀ b ∈ ct, b < 256)
    (hclen8 : clen < 256 ^ 8)
    (haead : p.aeadDec (deriveKey p sk pk) nonce ct = some pt)
    (hle : clen ≤ pt.length)
    (hdc : p.utf8Dec (pt.take clen) = some content)
    (hds : p.utf8Dec (pt.drop clen) = some schemaStr)
    (hfs : MessageSchemaType.fromStr schemaStr = some schema) :
    decryptMessageDataM p
      ⟨"encrypted:".data ++ hexEncodeL (le64 clen ++ (le64 slen ++ (nonce ++ ct)))⟩
      sk pk = .returned (.ok ⟨content, schema⟩) := by
  have hbytes : ∀ b ∈ le64 clen ++ (le64 slen ++ (nonce ++ ct)), b < 256 := by
    intro b hb
    rcases List.mem_append.1 hb with h | h
    · exact le64_bytes _ _ h
    rcases List.mem_append.1 h with h2 | h2
    · exact le64_bytes _ _ h2
    rcases List.mem_append.1 h2 with h3 | h3
    · exact hnb _ h3
    · exact hctb _ h3
  have hnocol : ∀ c ∈ hexEncodeL (le64 clen ++ (le64 slen ++ (nonce ++ ct))), c ≠ ':' :=
    fun c hc => mem_hexEncodeL_ne_colon _ hbytes c hc
  have hsplit : splitOnCh ':'
      ("encrypted:".data ++ hexEncodeL (le64 clen ++ (le64 slen ++ (nonce ++ ct))))
      = ["encrypted".data, hexEncodeL (le64 clen ++ (le64 slen ++ (nonce ++ ct)))] := by
    have hform : ("encrypted:".data ++ hexEncodeL (le64 clen ++ (le64 slen ++ (nonce ++ ct))))
        = "encrypted".data ++ ':' :: hexEncodeL (le64 clen ++ (le64 slen ++ (nonce ++ ct))) := rfl
    rw [hform, splitOnCh_append_sep _ _ _ (by decide),
      splitOnCh_no_sep _ _ hnocol]
  have hflen : (le64 clen ++ (le64 slen ++ (nonce ++ ct))).length
      = 8 + (8 + (12 + ct.length)) := by
    simp only [List.length_append, le64_length, hnlen]
  have hlen8 : 8 ≤ (le64 clen ++ (le64 slen ++ (nonce ++ ct))).length := by omega
  have htake8 : (le64 clen ++ (le64 slen ++ (nonce ++ ct))).take 8 = le64 clen :=
    List.take_left (le64 clen) (le64 slen ++ (nonce ++ ct))
  have hdrop8 : (le64 clen ++ (le64 slen ++ (nonce ++ ct))).drop 8
      = le64 slen ++ (nonce ++ ct) :=
    List.drop_left (le64 clen) (le64 slen ++ (nonce ++ ct))
  have hlen8b : 8 ≤ ((le64 clen ++ (le64 slen ++ (nonce ++ ct))).drop 8).length := by
    rw [List.length_drop]
    omega
  have hdrop8b : ((le64 clen ++ (le64 slen ++ (nonce ++ ct))).drop 8).drop 8
      = nonce ++ ct := by
    rw [hdrop8]
    exact List.drop_left (le64 slen) (nonce ++ ct)
  have hlen12 : 12 ≤ (((le64 clen ++ (le64 slen ++ (nonce ++ ct))).drop 8).drop 8).length := by
    rw [hdrop8b, List.length_append, hnlen]
    omega
  have htake12 : (((le64 clen ++ (le64 slen ++ (nonce ++ ct))).drop 8).drop 8).take 12
      = nonce := by
    rw [hdrop8b, ← hnlen]
    exact List.take_left nonce ct
  have hdrop12 : (((le64 clen ++ (le64 slen ++ (nonce ++ ct))).drop 8).drop 8).drop 12
      = ct := by
    rw [hdrop8b, ← hnlen]
    exact List.drop_left nonce ct
  have hfl : fromLe64 (le64 clen) = clen := fromLe64_le64 _ hclen8
  simp only [decryptMessageDataM, hsplit]
  simp only [List.headD_cons, hexDecodeL_hexEncodeL _ hbytes, if_pos hlen8,
    if_pos hlen8b, if_pos hlen12, htake8, htake12, hdrop12, htake8, hfl,
    haead, if_pos hle, hdc, hds, hfs]
  simp

/-- C1: round-trip crypto for both layers.  For every message body, inner
payload and key pair, decrypting with the recipient secret and sender
public key recovers what was encrypted with the sender secret and recipient
public key: the frames round-trip exactly, the Diffie-Hellman derivation
being symmetric (`hdh`) so both sides hold the identical AEAD key.  The
external primitives (x25519, blake3, ChaCha20-Poly1305, serde_json, UTF-8)
enter through `CryptoPrims`, assumed only to satisfy their defining
round-trip properties at the encrypted values. -/
theorem c1_crypto_roundtrip (p : CryptoPrims) (skA skB : Nat)
    (body : ZooBody) (data : ZooData) (nonce1 nonce2 : List Nat)
    (hn1len : nonce1.length = 12) (hn1b : ∀ b ∈ nonce1, b < 256)
    (hn2len : nonce2.length = 12) (hn2b : ∀ b ∈ nonce2, b < 256)
    (hdh : p.dh skB (p.pubOf skA) = p.dh skA (p.pubOf skB))
    (hctb : ∀ b ∈ p.aeadEnc (deriveKey p skA (p.pubOf skB)) nonce1 (p.serBody body), b < 256)
    (haead1 : p.aeadDec (deriveKey p skA (p.pubOf skB)) nonce1
        (p.aeadEnc (deriveKey p skA (p.pubOf skB)) nonce1 (p.serBody body))
      = some (p.serBody body))
    (hser : p.deBody (p.serBody body) = some body)
    (hctb2 : ∀ b ∈ p.aeadEnc (deriveKey p skA (p.pubOf skB)) nonce2
        (p.utf8Enc (data.message_raw_content ++ data.message_content_schema.toStr)), b < 256)
    (haead2 : p.aeadDec (deriveKey p skA (p.pubOf skB)) nonce2
        (p.aeadEnc (deriveKey p skA (p.pubOf skB)) nonce2
          (p.utf8Enc (data.message_raw_content ++ data.message_content_schema.toStr)))
      = some (p.utf8Enc (data.message_raw_content ++ data.message_content_schema.toStr)))
    (hcat : p.utf8Enc (data.message_raw_content ++ data.message_content_schema.toStr)
      = p.utf8Enc data.message_raw_content ++ p.utf8Enc data.message_content_schema.toStr)
    (hdec1 : p.utf8Dec (p.utf8Enc data.message_raw_content) = some data.message_raw_content)
    (hdec2 : p.utf8Dec (p.utf8Enc data.message_content_schema.toStr)
      = some data.message_content_schema.toStr)
    (hclen : (p.utf8Enc data.message_raw_content).length < 256 ^ 8) :
    decryptMessageBodyM p (encryptedBodyOf p body skA (p.pubOf skB) nonce1)
      skB (p.pubOf skA) = .returned (.ok body) ∧
    decryptMessageDataM p (encryptedDataOf p data skA (p.pubOf skB) nonce2)
      skB (p.pubOf skA) = .returned (.ok data) := by
  constructor
  · exact decryptBodyM_roundtrip p skA skB body nonce1 hn1len hn1b hdh hctb haead1 hser
  · have hkeyEq : deriveKey p skB (p.pubOf skA) = deriveKey p skA (p.pubOf skB) := by
      unfold deriveKey
      rw [hdh]
    have haead2k : p.aeadDec (deriveKey p skB (p.pubOf skA)) nonce2
        (p.aeadEnc (deriveKey p skA (p.pubOf skB)) nonce2
          (p.utf8Enc (data.message_raw_content ++ data.message_content_schema.toStr)))
        = some (p.utf8Enc (data.message_raw_content ++ data.message_content_schema.toStr)) := by
      rw [hkeyEq]
      exact haead2
    have hle : (p.utf8Enc data.message_raw_content).length
        ≤ (p.utf8Enc (data.message_raw_content ++ data.message_content_schema.toStr)).length := by
      rw [hcat, List.length_append]
      omega
    have hdc : p.utf8Dec ((p.utf8Enc (data.message_raw_content ++ data.message_content_schema.toStr)).take
        (p.utf8Enc data.message_raw_content).length) = some data.message_raw_content := by
      rw [hcat, List.take_left]
      exact hdec1
    have hds : p.utf8Dec ((p.utf8Enc (data.message_raw_content ++ data.message_content_schema.toStr)).drop
        (p.utf8Enc data.message_raw_content).length) = some data.message_content_schema.toStr := by
      rw [hcat, List.drop_left]
      exact hdec2
    exact decryptDataM_frame p skB (p.pubOf skA)
      (p.utf8Enc data.message_raw_content).length
      (p.utf8Enc data.message_content_schema.toStr).length
      nonce2
      (p.aeadEnc (deriveKey p skA (p.pubOf skB)) nonce2
        (p.utf8Enc (data.message_raw_content ++ data.message_content_schema.toStr)))
      (p.utf8Enc (data.message_raw_content ++ data.message_content_schema.toStr))
      data.message_raw_content data.message_content_schema.toStr
      data.message_content_schema
      hn2len hn2b hctb2 hclen haead2k hle hdc hds
      (fromStr_toStr data.message_content_schema)

/-- Witness for `c1_crypto_roundtrip` at a concrete primitive instance,
key pair, nonce, body and payload. -/
theorem c1_crypto_roundtrip_witness :
    decryptMessageBodyM toyPrims
      (encryptedBodyOf toyPrims toyBody 2 (toyPrims.pubOf 3) toyNonce)
      3 (toyPrims.pubOf 2) = .returned (.ok toyBody) ∧
    decryptMessageDataM toyPrims
      (encryptedDataOf toyPrims toyData 2 (toyPrims.pubOf 3) toyNonce)
      3 (toyPrims.pubOf 2) = .returned (.ok toyData) :=
  c1_crypto_roundtrip toyPrims 2 3 toyBody toyData toyNonce toyNonce
    (by decide) (by decide) (by decide) (by decide) (by decide)
    (by decide) (by decide) (by decide) (by decide) (by decide)
    (by decide) (by decide) (by decide) (by decide)
